import Mathlib

/-!
Shallow embedding of the fractal rendering pipeline found in
src/fractal_system.rs (a Bevy plugin driving a compute shader).

The embedding models the three per-frame stages the specification
describes: the request extractor (extract_fractals), the pipeline
registry (ComputeFractalPipeline built once through FromWorld and
init_resource), and the bind-state builder (queue_fractals). GPU
objects are modelled as records of the descriptors used to create
them; asset and entity handles are natural numbers. A panic of the
Rust code (the indexing gpu_images[&fractal.output] on a missing
key) is modelled by an Option result: none means the system panicked
and published nothing.
-/

/-- Identity of an entity in the ECS world. -/
abbrev Entity := Nat

/-- A Handle<Image> asset reference, modelled by its asset id. -/
abbrev ImageHandle := Nat

/-- A Handle<Shader> asset reference, modelled by its asset id. -/
abbrev ShaderHandle := Nat

/-- Cloning a handle weakly yields a reference to the same asset. -/
def cloneWeak (h : ImageHandle) : ImageHandle := h

/-- Types of fractals which can be generated (src/fractal_system.rs lines 28-34). -/
inductive FractalType
  | Julia : Float → Float → FractalType

/-- The ComputeFractalComponent attached to an entity (lines 16-23). -/
structure ComputeFractalComponent where
  fractal_type : FractalType
  iterations : Nat
  output : ImageHandle

/-- The ComputedVisibility component consulted by the extractor. -/
structure ComputedVisibility where
  is_visible : Bool

/-- One row of the extraction query
(Entity, ComputeFractalComponent, ComputedVisibility). -/
structure QueryItem where
  entity : Entity
  fractal : ComputeFractalComponent
  visibility : ComputedVisibility

/-- A fractal extracted from the logical ecs world to the render world
(lines 111-116). -/
structure ExtractedFractal where
  entity : Entity
  fractal_type : FractalType
  iterations : Nat
  output : ImageHandle

/-- The push performed at lines 141-146: copy the identity, the kind and
the iteration count verbatim, and a weak clone of the output handle. -/
def mkExtracted (item : QueryItem) : ExtractedFractal :=
  { entity := item.entity
    fractal_type := item.fractal.fractal_type
    iterations := item.fractal.iterations
    output := cloneWeak item.fractal.output }

/-- The body of the extraction loop (lines 134-147): skip the item when
it is not visible, otherwise push the copied entry. -/
def extract_step (acc : List ExtractedFractal) (item : QueryItem) :
    List ExtractedFractal :=
  if item.visibility.is_visible = false then acc
  else acc ++ [mkExtracted item]

/-- The extract_fractals system (lines 126-148): clear the snapshot kept
from the last frame, then fold the visibility-filtered query into it. -/
def extract_fractals (extracted_fractals : List ExtractedFractal)
    (query : List QueryItem) : List ExtractedFractal :=
  let cleared : List ExtractedFractal := []
  let _ := extracted_fractals
  query.foldl extract_step cleared

/-- ShaderStages visibility flags, restricted to the stages named in the
source. -/
inductive ShaderStages
  | COMPUTE
  | VERTEX
  | FRAGMENT
deriving DecidableEq

/-- StorageTextureAccess variants. -/
inductive StorageTextureAccess
  | ReadOnly
  | WriteOnly
  | ReadWrite
deriving DecidableEq

/-- TextureFormat variants (only the ones relevant to this code). -/
inductive TextureFormat
  | Rgba8Unorm
  | Rgba32Float
deriving DecidableEq

/-- TextureViewDimension variants. -/
inductive TextureViewDimension
  | D1
  | D2
  | D3
deriving DecidableEq

/-- BindingType, restricted to the storage-texture case the source uses. -/
inductive BindingType
  | StorageTexture : StorageTextureAccess → TextureFormat →
      TextureViewDimension → BindingType
deriving DecidableEq

/-- One entry of a bind group layout descriptor. -/
structure BindGroupLayoutEntry where
  binding : Nat
  visibility : ShaderStages
  ty : BindingType
  count : Option Nat
deriving DecidableEq

/-- A bind group layout descriptor. -/
structure BindGroupLayoutDescriptor where
  label : Option String
  entries : List BindGroupLayoutEntry
deriving DecidableEq

/-- A created bind group layout, modelled by the descriptor it was
created from. -/
abbrev BindGroupLayout := BindGroupLayoutDescriptor

/-- RenderDevice.create_bind_group_layout records the descriptor. -/
def create_bind_group_layout (desc : BindGroupLayoutDescriptor) :
    BindGroupLayout := desc

/-- A handle into the pipeline cache. -/
abbrev CachedComputePipelineId := Nat

/-- A compute pipeline descriptor (the fields the source fills in). -/
structure ComputePipelineDescriptor where
  label : Option String
  layout : Option (List BindGroupLayout)
  shader : ShaderHandle
  shader_defs : List String
  entry_point : String

/-- The PipelineCache resource: the list of descriptors queued so far.
The id returned for a queued descriptor is its index in this list. -/
structure PipelineCache where
  pipelines : List ComputePipelineDescriptor

/-- PipelineCache.queue_compute_pipeline: record the descriptor and hand
back a fresh id for it. Every call allocates a new cache entry, so two
calls yield two independent compilations. -/
def PipelineCache.queue_compute_pipeline (cache : PipelineCache)
    (desc : ComputePipelineDescriptor) :
    CachedComputePipelineId × PipelineCache :=
  (cache.pipelines.length, ⟨cache.pipelines ++ [desc]⟩)

/-- The asset id the asset server returns for
shaders/fractal_system.wgsl. -/
def fractal_system_shader : ShaderHandle := 0

/-- Compute pipeline for all fractal generation (lines 63-69). -/
structure ComputeFractalPipeline where
  julia_pipeline : CachedComputePipelineId
  texture_bind_group_layout : BindGroupLayout

/-- The FromWorld construction of ComputeFractalPipeline (lines 71-108):
build the shared texture layout, queue the julia compute pipeline in the
pipeline cache, and store both. -/
def ComputeFractalPipeline.from_world (pipeline_cache : PipelineCache) :
    ComputeFractalPipeline × PipelineCache :=
  let texture_bind_group_layout :=
    create_bind_group_layout
      { label := some "compute_fractal_texture_layout"
        entries := [{ binding := 0
                      visibility := ShaderStages.COMPUTE
                      ty := BindingType.StorageTexture
                        StorageTextureAccess.ReadWrite
                        TextureFormat.Rgba8Unorm
                        TextureViewDimension.D2
                      count := none }] }
  let shader := fractal_system_shader
  let queued :=
    pipeline_cache.queue_compute_pipeline
      { label := some "julia_fractal_pipeline"
        layout := some [texture_bind_group_layout]
        shader := shader
        shader_defs := []
        entry_point := "julia" }
  ({ julia_pipeline := queued.1
     texture_bind_group_layout := texture_bind_group_layout }, queued.2)

/-- The slice of the render world the registry touches: the pipeline
cache and the optional ComputeFractalPipeline resource. -/
structure RenderWorld where
  pipeline_cache : PipelineCache
  compute_fractal_pipeline : Option ComputeFractalPipeline

/-- init_resource for ComputeFractalPipeline: reuse the resource when it
already exists, otherwise run from_world once and store the result.
Returns the resource together with the updated world. -/
def init_resource (w : RenderWorld) : ComputeFractalPipeline × RenderWorld :=
  match w.compute_fractal_pipeline with
  | some p => (p, w)
  | none =>
    let built := ComputeFractalPipeline.from_world w.pipeline_cache
    (built.1, { pipeline_cache := built.2,
                compute_fractal_pipeline := some built.1 })

/-- The pipeline id the resource holds for a given fractal kind. -/
def pipeline_id_for (p : ComputeFractalPipeline) (t : FractalType) :
    CachedComputePipelineId :=
  match t with
  | FractalType.Julia _ _ => p.julia_pipeline

/-- Obtaining the pipeline for a fractal kind: ensure the registry
resource exists (init_resource) and read the handle stored for the kind. -/
def get_or_create_pipeline (w : RenderWorld) (t : FractalType) :
    CachedComputePipelineId × RenderWorld :=
  let got := init_resource w
  (pipeline_id_for got.1 t, got.2)

/-- A GPU-side image, carrying the id of its texture view. -/
structure GpuImage where
  texture_view : Nat
deriving DecidableEq

/-- RenderAssets<Image>: the uploaded GPU images by handle. -/
abbrev RenderAssetsImage := List (ImageHandle × GpuImage)

/-- Lookup of a handle in RenderAssets<Image>. The Rust code indexes
with gpu_images[&fractal.output], which panics when the lookup fails;
the none case marks that panic. -/
def lookup_image (gpu_images : RenderAssetsImage) (h : ImageHandle) :
    Option GpuImage :=
  match gpu_images with
  | [] => none
  | (k, v) :: rest => if k = h then some v else lookup_image rest h

/-- A binding resource; the source only binds texture views. -/
inductive BindingResource
  | TextureView : Nat → BindingResource
deriving DecidableEq

/-- One entry of a bind group descriptor. -/
structure BindGroupEntry where
  binding : Nat
  resource : BindingResource
deriving DecidableEq

/-- A bind group descriptor. -/
structure BindGroupDescriptor where
  label : Option String
  layout : BindGroupLayout
  entries : List BindGroupEntry
deriving DecidableEq

/-- A created bind group, modelled by the descriptor it was created
from. -/
abbrev BindGroup := BindGroupDescriptor

/-- RenderDevice.create_bind_group records the descriptor. -/
def create_bind_group (desc : BindGroupDescriptor) : BindGroup := desc

/-- Bind groups for all extracted fractals (lines 182-185), a map from
entity to bind group modelled as an association list. -/
structure ComputeFractalBindGroups where
  values : List (Entity × BindGroup)
deriving DecidableEq

/-- The empty ComputeFractalBindGroups, as Default::default() yields. -/
def ComputeFractalBindGroups.default : ComputeFractalBindGroups := ⟨[]⟩

/-- HashMap::insert semantics on the association list: replace the value
when the key is present, append otherwise. -/
def hashmap_insert (m : List (Entity × BindGroup)) (k : Entity)
    (v : BindGroup) : List (Entity × BindGroup) :=
  match m with
  | [] => [(k, v)]
  | (k0, v0) :: rest =>
    if k0 = k then (k, v) :: rest else (k0, v0) :: hashmap_insert rest k v

/-- HashMap lookup on the association list. -/
def bind_groups_lookup (m : List (Entity × BindGroup)) (e : Entity) :
    Option BindGroup :=
  match m with
  | [] => none
  | (k, v) :: rest => if k = e then some v else bind_groups_lookup rest e

/-- The bind group queue_fractals creates for one extracted fractal,
when its output resolves: label none, the shared layout, and a single
entry binding the texture view of the output at slot 0 (lines 166-173). -/
def queued_bind_group (gpu_images : RenderAssetsImage)
    (pipeline : ComputeFractalPipeline) (fractal : ExtractedFractal) :
    Option BindGroup :=
  match lookup_image gpu_images fractal.output with
  | none => none
  | some view =>
    some (create_bind_group
      { label := none
        layout := pipeline.texture_bind_group_layout
        entries := [{ binding := 0
                      resource := BindingResource.TextureView
                        view.texture_view }] })

/-- The body of the queue loop (lines 161-176). A none state means an
earlier iteration already panicked; a failing image lookup panics now;
otherwise the created bind group is inserted under the entity. -/
def queue_step (gpu_images : RenderAssetsImage)
    (pipeline : ComputeFractalPipeline)
    (st : Option ComputeFractalBindGroups) (fractal : ExtractedFractal) :
    Option ComputeFractalBindGroups :=
  match st with
  | none => none
  | some bind_groups =>
    match queued_bind_group gpu_images pipeline fractal with
    | none => none
    | some bind_group =>
      some ⟨hashmap_insert bind_groups.values fractal.entity bind_group⟩

/-- The queue_fractals system (lines 152-179): start from the default
empty map, process every extracted fractal, and publish the result.
A none result models the panic of the image indexing: in that case the
system dies before commands.insert_resource runs and nothing is
published. -/
def queue_fractals (gpu_images : RenderAssetsImage)
    (pipeline : ComputeFractalPipeline)
    (extracted_fractals : List ExtractedFractal) :
    Option ComputeFractalBindGroups :=
  extracted_fractals.foldl (queue_step gpu_images pipeline)
    (some ComputeFractalBindGroups.default)

/-- commands.insert_resource: the freshly built resource replaces
whatever resource a previous frame left behind. -/
def insert_resource (prev : Option ComputeFractalBindGroups)
    (bind_groups : ComputeFractalBindGroups) :
    Option ComputeFractalBindGroups :=
  let _ := prev
  some bind_groups

/-- The per-frame render state the two systems own: the extracted
snapshot and the published bind groups. -/
structure FrameState where
  extracted : List ExtractedFractal
  bind_groups : Option ComputeFractalBindGroups

/-- One render frame: run extract_fractals over the state left from the
previous frame, then queue_fractals; none models the frame dying in the
panic of the queue stage, in which case nothing is published. -/
def frame_step (prev : FrameState) (query : List QueryItem)
    (gpu_images : RenderAssetsImage)
    (pipeline : ComputeFractalPipeline) : Option FrameState :=
  match queue_fractals gpu_images pipeline
      (extract_fractals prev.extracted query) with
  | none => none
  | some bg =>
    some { extracted := extract_fractals prev.extracted query
           bind_groups := insert_resource prev.bind_groups bg }

/-! ### Helper lemmas about the extractor -/

/-- Folding the extraction step appends the visible entries to the
accumulator. -/
lemma extract_foldl_eq (query : List QueryItem)
    (acc : List ExtractedFractal) :
    query.foldl extract_step acc =
      acc ++ (query.filter
        (fun item => item.visibility.is_visible)).map mkExtracted := by
  induction query generalizing acc with
  | nil => simp
  | cons x xs ih =>
    cases h : x.visibility.is_visible with
    | false => simp [extract_step, h, ih]
    | true => simp [extract_step, h, ih]

/-- The snapshot the extractor produces is the visibility filter of the
query, in query order, with the fields copied by mkExtracted; the
previous snapshot plays no part. -/
lemma extract_fractals_eq (prev : List ExtractedFractal)
    (query : List QueryItem) :
    extract_fractals prev query =
      (query.filter
        (fun item => item.visibility.is_visible)).map mkExtracted := by
  simpa [extract_fractals] using extract_foldl_eq query []

/-! ### Helper lemmas about the bind-state builder -/

/-- A panic is absorbing: once a step died, the fold stays dead. -/
lemma queue_foldl_none (gpu : RenderAssetsImage)
    (pipeline : ComputeFractalPipeline)
    (snap : List ExtractedFractal) :
    snap.foldl (queue_step gpu pipeline) none = none := by
  induction snap with
  | nil => rfl
  | cons x xs ih => simpa [queue_step] using ih

/-- The per-entry bind group fails exactly when the image lookup fails. -/
lemma queued_bind_group_none_iff (gpu : RenderAssetsImage)
    (pipeline : ComputeFractalPipeline) (f : ExtractedFractal) :
    queued_bind_group gpu pipeline f = none ↔
      lookup_image gpu f.output = none := by
  unfold queued_bind_group
  cases h : lookup_image gpu f.output <;> simp

/-- The queue fold survives exactly when every entry of the snapshot has
an uploaded GPU image. -/
lemma queue_foldl_isSome_iff (gpu : RenderAssetsImage)
    (pipeline : ComputeFractalPipeline) :
    ∀ (snap : List ExtractedFractal) (bg : ComputeFractalBindGroups),
      (snap.foldl (queue_step gpu pipeline) (some bg)).isSome ↔
        ∀ f ∈ snap, (lookup_image gpu f.output).isSome := by
  intro snap
  induction snap with
  | nil => intro bg; simp
  | cons x xs ih =>
    intro bg
    rcases h : queued_bind_group gpu pipeline x with _ | g
    · have hl : lookup_image gpu x.output = none :=
        (queued_bind_group_none_iff gpu pipeline x).mp h
      have hstep : queue_step gpu pipeline (some bg) x = none := by
        simp [queue_step, h]
      simp [List.foldl_cons, hstep, queue_foldl_none, hl]
    · have hl : (lookup_image gpu x.output).isSome := by
        rcases hv : lookup_image gpu x.output with _ | v
        · exact absurd ((queued_bind_group_none_iff gpu pipeline x).mpr hv)
            (by simp [h])
        · rfl
      have hstep : queue_step gpu pipeline (some bg) x =
          some ⟨hashmap_insert bg.values x.entity g⟩ := by
        simp [queue_step, h]
      simp [List.foldl_cons, hstep, ih, hl]

/-- Inserting into the empty map yields the singleton map. -/
lemma hashmap_insert_nil (k : Entity) (v : BindGroup) :
    hashmap_insert [] k v = [(k, v)] := rfl

/-- Inserting over a pair that already carries the key replaces it. -/
lemma hashmap_insert_cons_self (k : Entity) (v v0 : BindGroup)
    (rest : List (Entity × BindGroup)) :
    hashmap_insert ((k, v0) :: rest) k v = (k, v) :: rest := by
  simp [hashmap_insert]

/-- Inserting walks past a pair that carries a different key. -/
lemma hashmap_insert_cons_ne (k0 k : Entity) (v v0 : BindGroup)
    (rest : List (Entity × BindGroup)) (hk : k0 ≠ k) :
    hashmap_insert ((k0, v0) :: rest) k v =
      (k0, v0) :: hashmap_insert rest k v := by
  simp [hashmap_insert, hk]

/-- Membership in the keys of the map after an insert. -/
lemma hashmap_insert_keys (m : List (Entity × BindGroup)) (k : Entity)
    (v : BindGroup) (e : Entity) :
    e ∈ (hashmap_insert m k v).map Prod.fst ↔
      e = k ∨ e ∈ m.map Prod.fst := by
  induction m with
  | nil => simp [hashmap_insert_nil]
  | cons p rest ih =>
    obtain ⟨k0, v0⟩ := p
    by_cases hk : k0 = k
    · subst hk
      rw [hashmap_insert_cons_self]
      simp
    · rw [hashmap_insert_cons_ne _ _ _ _ _ hk]
      simp [ih]
      tauto

/-- Inserting preserves distinctness of the keys. -/
lemma hashmap_insert_nodup (m : List (Entity × BindGroup)) (k : Entity)
    (v : BindGroup) (h : (m.map Prod.fst).Nodup) :
    ((hashmap_insert m k v).map Prod.fst).Nodup := by
  induction m with
  | nil => simp [hashmap_insert_nil]
  | cons p rest ih =>
    obtain ⟨k0, v0⟩ := p
    simp only [List.map_cons, List.nodup_cons] at h
    by_cases hk : k0 = k
    · subst hk
      rw [hashmap_insert_cons_self]
      simp only [List.map_cons, List.nodup_cons]
      exact ⟨h.1, h.2⟩
    · rw [hashmap_insert_cons_ne _ _ _ _ _ hk]
      simp only [List.map_cons, List.nodup_cons]
      refine ⟨fun hmem => ?_, ih h.2⟩
      rcases (hashmap_insert_keys rest k v k0).mp hmem with h0 | h0
      · exact hk h0
      · exact h.1 h0

/-- Looking up the inserted key finds the inserted value. -/
lemma hashmap_insert_lookup_self (m : List (Entity × BindGroup))
    (k : Entity) (v : BindGroup) :
    bind_groups_lookup (hashmap_insert m k v) k = some v := by
  induction m with
  | nil => simp [hashmap_insert_nil, bind_groups_lookup]
  | cons p rest ih =>
    obtain ⟨k0, v0⟩ := p
    by_cases hk : k0 = k
    · subst hk
      rw [hashmap_insert_cons_self]
      simp [bind_groups_lookup]
    · rw [hashmap_insert_cons_ne _ _ _ _ _ hk]
      simp [bind_groups_lookup, hk, ih]

/-- Looking up a different key is unaffected by the insert. -/
lemma hashmap_insert_lookup_other (m : List (Entity × BindGroup))
    (k : Entity) (v : BindGroup) (e : Entity) (h : e ≠ k) :
    bind_groups_lookup (hashmap_insert m k v) e =
      bind_groups_lookup m e := by
  induction m with
  | nil => simp [hashmap_insert_nil, bind_groups_lookup, Ne.symm h]
  | cons p rest ih =>
    obtain ⟨k0, v0⟩ := p
    by_cases hk : k0 = k
    · subst hk
      rw [hashmap_insert_cons_self]
      simp [bind_groups_lookup, Ne.symm h]
    · rw [hashmap_insert_cons_ne _ _ _ _ _ hk]
      simp [bind_groups_lookup, ih]

/-- Every pair of the map after an insert is the inserted pair or one of
the old pairs. -/
lemma hashmap_insert_mem (m : List (Entity × BindGroup)) (k : Entity)
    (v : BindGroup) (q : Entity × BindGroup)
    (hq : q ∈ hashmap_insert m k v) : q = (k, v) ∨ q ∈ m := by
  induction m with
  | nil => simpa [hashmap_insert_nil] using hq
  | cons p rest ih =>
    obtain ⟨k0, v0⟩ := p
    by_cases hk : k0 = k
    · subst hk
      rw [hashmap_insert_cons_self] at hq
      rcases List.mem_cons.mp hq with h0 | h0
      · exact Or.inl h0
      · exact Or.inr (List.mem_cons_of_mem _ h0)
    · rw [hashmap_insert_cons_ne _ _ _ _ _ hk] at hq
      rcases List.mem_cons.mp hq with h0 | h0
      · exact Or.inr (h0 ▸ List.mem_cons_self _ _)
      · rcases ih h0 with h1 | h1
        · exact Or.inl h1
        · exact Or.inr (List.mem_cons_of_mem _ h1)

/-- A step whose image lookup fails kills the fold state. -/
lemma queue_step_none (gpu : RenderAssetsImage)
    (pipeline : ComputeFractalPipeline)
    (bg : ComputeFractalBindGroups) (x : ExtractedFractal)
    (hg : queued_bind_group gpu pipeline x = none) :
    queue_step gpu pipeline (some bg) x = none := by
  simp [queue_step, hg]

/-- A step whose image lookup succeeds inserts the created bind group
under the entity of the entry. -/
lemma queue_step_some (gpu : RenderAssetsImage)
    (pipeline : ComputeFractalPipeline)
    (bg : ComputeFractalBindGroups) (x : ExtractedFractal)
    (g : BindGroup) (hg : queued_bind_group gpu pipeline x = some g) :
    queue_step gpu pipeline (some bg) x =
      some ⟨hashmap_insert bg.values x.entity g⟩ := by
  simp [queue_step, hg]

/-- The keys of the map the fold produces are the starting keys plus the
entities of the snapshot. -/
lemma queue_foldl_keys (gpu : RenderAssetsImage)
    (pipeline : ComputeFractalPipeline) :
    ∀ (snap : List ExtractedFractal)
      (bg bg' : ComputeFractalBindGroups),
      snap.foldl (queue_step gpu pipeline) (some bg) = some bg' →
      ∀ e, e ∈ bg'.values.map Prod.fst ↔
        e ∈ bg.values.map Prod.fst ∨
          e ∈ snap.map ExtractedFractal.entity := by
  intro snap
  induction snap with
  | nil =>
    intro bg bg' h e
    simp only [List.foldl_nil, Option.some.injEq] at h
    subst h
    simp
  | cons x xs ih =>
    intro bg bg' h e
    rcases hg : queued_bind_group gpu pipeline x with _ | g
    · rw [List.foldl_cons, queue_step_none gpu pipeline bg x hg,
        queue_foldl_none] at h
      exact absurd h (by simp)
    · rw [List.foldl_cons, queue_step_some gpu pipeline bg x g hg] at h
      rw [ih _ _ h e]
      simp only [List.map_cons, List.mem_cons]
      constructor
      · rintro (hm | hm)
        · rcases (hashmap_insert_keys bg.values x.entity g e).mp hm
            with h0 | h0
          · exact Or.inr (Or.inl h0)
          · exact Or.inl h0
        · exact Or.inr (Or.inr hm)
      · rintro (hm | hm | hm)
        · exact Or.inl
            ((hashmap_insert_keys bg.values x.entity g e).mpr
              (Or.inr hm))
        · exact Or.inl
            ((hashmap_insert_keys bg.values x.entity g e).mpr
              (Or.inl hm))
        · exact Or.inr hm

/-- The fold keeps the keys of the map distinct. -/
lemma queue_foldl_nodup (gpu : RenderAssetsImage)
    (pipeline : ComputeFractalPipeline) :
    ∀ (snap : List ExtractedFractal)
      (bg bg' : ComputeFractalBindGroups),
      snap.foldl (queue_step gpu pipeline) (some bg) = some bg' →
      (bg.values.map Prod.fst).Nodup →
      (bg'.values.map Prod.fst).Nodup := by
  intro snap
  induction snap with
  | nil =>
    intro bg bg' h hnd
    simp only [List.foldl_nil, Option.some.injEq] at h
    exact h ▸ hnd
  | cons x xs ih =>
    intro bg bg' h hnd
    rcases hg : queued_bind_group gpu pipeline x with _ | g
    · rw [List.foldl_cons, queue_step_none gpu pipeline bg x hg,
        queue_foldl_none] at h
      exact absurd h (by simp)
    · rw [List.foldl_cons, queue_step_some gpu pipeline bg x g hg] at h
      exact ih _ _ h (hashmap_insert_nodup bg.values x.entity g hnd)

/-- Entities outside the remaining snapshot keep their binding. -/
lemma queue_foldl_lookup_preserved (gpu : RenderAssetsImage)
    (pipeline : ComputeFractalPipeline) :
    ∀ (snap : List ExtractedFractal)
      (bg bg' : ComputeFractalBindGroups),
      snap.foldl (queue_step gpu pipeline) (some bg) = some bg' →
      ∀ e, e ∉ snap.map ExtractedFractal.entity →
        bind_groups_lookup bg'.values e = bind_groups_lookup bg.values e := by
  intro snap
  induction snap with
  | nil =>
    intro bg bg' h e _
    simp only [List.foldl_nil, Option.some.injEq] at h
    rw [h]
  | cons x xs ih =>
    intro bg bg' h e he
    simp only [List.map_cons, List.mem_cons, not_or] at he
    rcases hg : queued_bind_group gpu pipeline x with _ | g
    · rw [List.foldl_cons, queue_step_none gpu pipeline bg x hg,
        queue_foldl_none] at h
      exact absurd h (by simp)
    · rw [List.foldl_cons, queue_step_some gpu pipeline bg x g hg] at h
      rw [ih _ _ h e (by simpa using he.2)]
      exact hashmap_insert_lookup_other bg.values x.entity g e he.1

/-- When the entities of the snapshot are distinct, the final map binds
each entry of the snapshot to the bind group created for it. -/
lemma queue_foldl_lookup_mem (gpu : RenderAssetsImage)
    (pipeline : ComputeFractalPipeline) :
    ∀ (snap : List ExtractedFractal)
      (bg bg' : ComputeFractalBindGroups),
      snap.foldl (queue_step gpu pipeline) (some bg) = some bg' →
      (snap.map ExtractedFractal.entity).Nodup →
      ∀ f ∈ snap,
        bind_groups_lookup bg'.values f.entity =
          queued_bind_group gpu pipeline f := by
  intro snap
  induction snap with
  | nil =>
    intro bg bg' _ _ f hf
    exact absurd hf (by simp)
  | cons x xs ih =>
    intro bg bg' h hnd f hf
    simp only [List.map_cons, List.nodup_cons] at hnd
    rcases hg : queued_bind_group gpu pipeline x with _ | g
    · rw [List.foldl_cons, queue_step_none gpu pipeline bg x hg,
        queue_foldl_none] at h
      exact absurd h (by simp)
    · rw [List.foldl_cons, queue_step_some gpu pipeline bg x g hg] at h
      rcases List.mem_cons.mp hf with h0 | h0
      · subst h0
        rw [queue_foldl_lookup_preserved gpu pipeline xs _ _ h f.entity
          hnd.1]
        rw [hashmap_insert_lookup_self, hg]
      · exact ih _ _ h hnd.2 f h0

/-- Every binding the fold publishes originates in some snapshot entry
or was in the starting map. -/
lemma queue_foldl_mem (gpu : RenderAssetsImage)
    (pipeline : ComputeFractalPipeline) :
    ∀ (snap : List ExtractedFractal)
      (bg bg' : ComputeFractalBindGroups),
      snap.foldl (queue_step gpu pipeline) (some bg) = some bg' →
      ∀ q ∈ bg'.values, q ∈ bg.values ∨
        ∃ f ∈ snap, q.1 = f.entity ∧
          queued_bind_group gpu pipeline f = some q.2 := by
  intro snap
  induction snap with
  | nil =>
    intro bg bg' h q hq
    simp only [List.foldl_nil, Option.some.injEq] at h
    exact Or.inl (h ▸ hq)
  | cons x xs ih =>
    intro bg bg' h q hq
    rcases hg : queued_bind_group gpu pipeline x with _ | g
    · rw [List.foldl_cons, queue_step_none gpu pipeline bg x hg,
        queue_foldl_none] at h
      exact absurd h (by simp)
    · rw [List.foldl_cons, queue_step_some gpu pipeline bg x g hg] at h
      rcases ih _ _ h q hq with h0 | h0
      · rcases hashmap_insert_mem bg.values x.entity g q h0 with h1 | h1
        · refine Or.inr ⟨x, List.mem_cons_self _ _, ?_, ?_⟩
          · rw [h1]
          · rw [h1, hg]
        · exact Or.inl h1
      · obtain ⟨f, hfmem, hfe, hfg⟩ := h0
        exact Or.inr ⟨f, List.mem_cons_of_mem _ hfmem, hfe, hfg⟩

/-! ### Claim theorems -/

/-- C2: the extractor produces a FrameSnapshot containing exactly the
requests whose visibility flag is true: an entry is in the snapshot if
and only if it is the copy of some visible query item, so every visible
request appears and no invisible request ever appears. -/
theorem extract_fractals_exactly_visible (prev : List ExtractedFractal)
    (query : List QueryItem) (entry : ExtractedFractal) :
    entry ∈ extract_fractals prev query ↔
      ∃ item, item ∈ query ∧ item.visibility.is_visible = true ∧
        entry = mkExtracted item := by
  rw [extract_fractals_eq]
  simp only [List.mem_map, List.mem_filter]
  constructor
  · rintro ⟨item, ⟨hmem, hvis⟩, heq⟩
    exact ⟨item, hmem, by simpa using hvis, heq.symm⟩
  · rintro ⟨item, hmem, hvis, heq⟩
    exact ⟨item, ⟨hmem, by simpa using hvis⟩, heq.symm⟩

/-- C9: extraction is deterministic and order-stable: the snapshot does
not depend on the previous snapshot, equals the visibility filter of the
query mapped through the verbatim copy, in query iteration order, and
the copy preserves identity, kind and iteration count. -/
theorem extract_fractals_deterministic_order_stable
    (prev prev2 : List ExtractedFractal) (query : List QueryItem) :
    extract_fractals prev query = extract_fractals prev2 query ∧
    extract_fractals prev query =
      (query.filter
        (fun item => item.visibility.is_visible)).map mkExtracted ∧
    ∀ item : QueryItem,
      (mkExtracted item).entity = item.entity ∧
      (mkExtracted item).fractal_type = item.fractal.fractal_type ∧
      (mkExtracted item).iterations = item.fractal.iterations ∧
      (mkExtracted item).output = item.fractal.output := by
  refine ⟨?_, extract_fractals_eq prev query, ?_⟩
  · rw [extract_fractals_eq, extract_fractals_eq]
  · intro item
    exact ⟨rfl, rfl, rfl, rfl⟩

/-- C7: the extractor discards the previous snapshot and the builder
discards the previous bind state: the state a frame publishes is
entirely independent of whatever FrameState the previous frame left
behind. -/
theorem frame_state_rebuilt_each_frame (prev prev2 : FrameState)
    (query : List QueryItem) (gpu : RenderAssetsImage)
    (pipeline : ComputeFractalPipeline) :
    frame_step prev query gpu pipeline =
      frame_step prev2 query gpu pipeline := by
  unfold frame_step
  rw [show extract_fractals prev.extracted query =
      extract_fractals prev2.extracted query from by
    rw [extract_fractals_eq, extract_fractals_eq]]
  cases queue_fractals gpu pipeline
      (extract_fractals prev2.extracted query) <;>
    simp [insert_resource]

/-- C4: obtaining the Julia pipeline is idempotent: a second request
returns the same cached pipeline id and leaves the render world, in
particular the pipeline cache, unchanged, so no second compilation is
queued. -/
theorem get_or_create_pipeline_idempotent (w : RenderWorld)
    (a b c d : Float) :
    (get_or_create_pipeline
        ((get_or_create_pipeline w (FractalType.Julia a b)).2)
        (FractalType.Julia c d)).1 =
      (get_or_create_pipeline w (FractalType.Julia a b)).1 ∧
    (get_or_create_pipeline
        ((get_or_create_pipeline w (FractalType.Julia a b)).2)
        (FractalType.Julia c d)).2 =
      (get_or_create_pipeline w (FractalType.Julia a b)).2 := by
  cases hw : w.compute_fractal_pipeline with
  | some p =>
    constructor <;>
      simp [get_or_create_pipeline, init_resource, pipeline_id_for, hw]
  | none =>
    constructor <;>
      simp [get_or_create_pipeline, init_resource, pipeline_id_for, hw]

/-- C10: queue_fractals survives exactly when every snapshot entry has
an uploaded GPU image: under that precondition the failure branch of the
image lookup, the only partial operation of the builder, is unreachable
and the builder completes; and when it fails, some entry had no uploaded
image. -/
theorem queue_fractals_total_when_resolvable (gpu : RenderAssetsImage)
    (pipeline : ComputeFractalPipeline)
    (snap : List ExtractedFractal) :
    (queue_fractals gpu pipeline snap).isSome ↔
      ∀ f ∈ snap, (lookup_image gpu f.output).isSome := by
  unfold queue_fractals
  exact queue_foldl_isSome_iff gpu pipeline snap
    ComputeFractalBindGroups.default

/-- A lookup succeeds exactly when the key is among the keys. -/
lemma bind_groups_lookup_isSome (m : List (Entity × BindGroup))
    (e : Entity) :
    (bind_groups_lookup m e).isSome ↔ e ∈ m.map Prod.fst := by
  induction m with
  | nil => simp [bind_groups_lookup]
  | cons p rest ih =>
    obtain ⟨k, v⟩ := p
    by_cases hk : k = e
    · subst hk
      simp [bind_groups_lookup]
    · simp [bind_groups_lookup, hk, ih, Ne.symm hk]

/-- C1 counterexample: a batch of two entries in which only the second
output is uploaded. The claim predicts the first entry is skipped and a
FrameBindState holding the second is still published; the code instead
dies in the indexing of the missing image and publishes nothing. -/
theorem queue_missing_output_not_skipped_cex :
    lookup_image [(7, ⟨42⟩)] 5 = none ∧
    lookup_image [(7, ⟨42⟩)] 7 = some ⟨42⟩ ∧
    queue_fractals [(7, ⟨42⟩)]
      (ComputeFractalPipeline.from_world ⟨[]⟩).1
      [⟨0, FractalType.Julia 0.0 0.0, 100, 5⟩,
       ⟨1, FractalType.Julia 0.0 0.0, 100, 7⟩] = none :=
  ⟨rfl, rfl, rfl⟩

/-- C1 amended: when any snapshot entry has an output that does not
resolve to an uploaded GPU image, queue_fractals panics at that entry,
so the whole batch fails and no FrameBindState is published for the
frame. -/
theorem queue_fractals_unresolved_output_aborts
    (gpu : RenderAssetsImage) (pipeline : ComputeFractalPipeline)
    (snap : List ExtractedFractal) (f : ExtractedFractal)
    (hf : f ∈ snap) (hl : lookup_image gpu f.output = none) :
    queue_fractals gpu pipeline snap = none := by
  rcases hq : queue_fractals gpu pipeline snap with _ | bg
  · rfl
  · have hs : (queue_fractals gpu pipeline snap).isSome := by
      rw [hq]; rfl
    have hall := (queue_foldl_isSome_iff gpu pipeline snap
      ComputeFractalBindGroups.default).mp
      (by simpa [queue_fractals] using hs)
    have := hall f hf
    rw [hl] at this
    exact absurd this (by simp)

/-- C1 amended witness: a singleton snapshot whose output handle 5 is
absent from the uploaded images aborts the builder. -/
theorem queue_fractals_unresolved_output_aborts_witness :
    queue_fractals [(7, ⟨42⟩)]
      (ComputeFractalPipeline.from_world ⟨[]⟩).1
      [⟨0, FractalType.Julia 0.0 0.0, 100, 5⟩] = none :=
  queue_fractals_unresolved_output_aborts _ _ _
    ⟨0, FractalType.Julia 0.0 0.0, 100, 5⟩
    (List.mem_singleton.mpr rfl) rfl

/-- C5 counterexample: a visible request created with iterations = 0 is
not rejected anywhere; the extractor copies it into the snapshot with
its zero iteration count intact. -/
theorem zero_iterations_reaches_snapshot_cex :
    extract_fractals []
        [⟨7, ⟨FractalType.Julia 0.0 0.0, 0, 3⟩, ⟨true⟩⟩] =
      [⟨7, FractalType.Julia 0.0 0.0, 0, 3⟩] ∧
    (extract_fractals []
        [⟨7, ⟨FractalType.Julia 0.0 0.0, 0, 3⟩, ⟨true⟩⟩]).map
      ExtractedFractal.iterations = [0] :=
  ⟨rfl, rfl⟩

/-- C5 amended: no creation-time validation of the iteration count
exists; a request with iterations = 0 is representable and, when
visible, reaches the FrameSnapshot with iterations = 0 copied
verbatim. -/
theorem zero_iterations_not_rejected (prev : List ExtractedFractal)
    (query : List QueryItem) (item : QueryItem)
    (hmem : item ∈ query) (hvis : item.visibility.is_visible = true)
    (hit : item.fractal.iterations = 0) :
    mkExtracted item ∈ extract_fractals prev query ∧
      (mkExtracted item).iterations = 0 := by
  constructor
  · rw [extract_fractals_eq]
    refine List.mem_map_of_mem _ (List.mem_filter.mpr ⟨hmem, ?_⟩)
    simpa using hvis
  · simpa [mkExtracted] using hit

/-- C5 amended witness: the concrete zero-iteration visible request of
the counterexample reaches the snapshot. -/
theorem zero_iterations_not_rejected_witness :
    mkExtracted ⟨7, ⟨FractalType.Julia 0.0 0.0, 0, 3⟩, ⟨true⟩⟩ ∈
        extract_fractals []
          [⟨7, ⟨FractalType.Julia 0.0 0.0, 0, 3⟩, ⟨true⟩⟩] ∧
      (mkExtracted
        ⟨7, ⟨FractalType.Julia 0.0 0.0, 0, 3⟩, ⟨true⟩⟩).iterations =
        0 :=
  zero_iterations_not_rejected [] _ _ (List.mem_singleton.mpr rfl)
    rfl rfl

/-- C3: when every snapshot entry resolves, queue_fractals publishes a
FrameBindState whose keys are distinct and are exactly the entities of
the snapshot: one bind group per entry, keyed by identity, no
duplicates, none for entities outside the snapshot. -/
theorem queue_fractals_one_bind_group_per_entry
    (gpu : RenderAssetsImage) (pipeline : ComputeFractalPipeline)
    (snap : List ExtractedFractal)
    (hres : ∀ f ∈ snap, (lookup_image gpu f.output).isSome) :
    ∃ bg, queue_fractals gpu pipeline snap = some bg ∧
      (bg.values.map Prod.fst).Nodup ∧
      (∀ e, e ∈ bg.values.map Prod.fst ↔
        e ∈ snap.map ExtractedFractal.entity) ∧
      ∀ f ∈ snap, (bind_groups_lookup bg.values f.entity).isSome := by
  have hs : (queue_fractals gpu pipeline snap).isSome := by
    unfold queue_fractals
    exact (queue_foldl_isSome_iff gpu pipeline snap
      ComputeFractalBindGroups.default).mpr hres
  rcases hq : queue_fractals gpu pipeline snap with _ | bg
  · rw [hq] at hs
    exact absurd hs (by simp)
  · have hq' : snap.foldl (queue_step gpu pipeline)
        (some ComputeFractalBindGroups.default) = some bg := by
      simpa [queue_fractals] using hq
    have hkeys : ∀ e, e ∈ bg.values.map Prod.fst ↔
        e ∈ snap.map ExtractedFractal.entity := by
      intro e
      have := queue_foldl_keys gpu pipeline snap _ bg hq' e
      simpa [ComputeFractalBindGroups.default] using this
    refine ⟨bg, rfl, ?_, hkeys, ?_⟩
    · exact queue_foldl_nodup gpu pipeline snap _ bg hq'
        (by simp [ComputeFractalBindGroups.default])
    · intro f hf
      rw [bind_groups_lookup_isSome, hkeys]
      exact List.mem_map_of_mem _ hf

/-- C3 witness: a one-entry snapshot whose output handle 5 is uploaded
receives exactly one bind group, keyed by entity 0. -/
theorem queue_fractals_one_bind_group_per_entry_witness :
    ∃ bg, queue_fractals [(5, ⟨9⟩)]
        (ComputeFractalPipeline.from_world ⟨[]⟩).1
        [⟨0, FractalType.Julia 0.0 0.0, 100, 5⟩] = some bg ∧
      (bg.values.map Prod.fst).Nodup ∧
      (∀ e, e ∈ bg.values.map Prod.fst ↔
        e ∈ ([⟨0, FractalType.Julia 0.0 0.0, 100, 5⟩] :
          List ExtractedFractal).map ExtractedFractal.entity) ∧
      ∀ f ∈ ([⟨0, FractalType.Julia 0.0 0.0, 100, 5⟩] :
          List ExtractedFractal),
        (bind_groups_lookup bg.values f.entity).isSome :=
  queue_fractals_one_bind_group_per_entry _ _ _
    (by
      intro f hf
      rw [List.mem_singleton] at hf
      subst hf
      rfl)

/-- C6: the bind group layout built by the registry has exactly one
binding, at index 0, a read-write storage texture of format Rgba8Unorm
with 2D view dimension and compute visibility; and every bind group the
builder publishes is created against the shared layout of the registry
resource, with a single entry at binding 0 holding the texture view of
the output of its snapshot entry. -/
theorem fractal_bind_group_layout_spec
    (cache : PipelineCache) (gpu : RenderAssetsImage)
    (pipeline : ComputeFractalPipeline)
    (snap : List ExtractedFractal) (bg : ComputeFractalBindGroups)
    (hq : queue_fractals gpu pipeline snap = some bg) :
    (ComputeFractalPipeline.from_world
        cache).1.texture_bind_group_layout =
      { label := some "compute_fractal_texture_layout"
        entries := [{ binding := 0
                      visibility := ShaderStages.COMPUTE
                      ty := BindingType.StorageTexture
                        StorageTextureAccess.ReadWrite
                        TextureFormat.Rgba8Unorm
                        TextureViewDimension.D2
                      count := none }] } ∧
    ∀ e g, (e, g) ∈ bg.values →
      g.layout = pipeline.texture_bind_group_layout ∧
      ∃ f, f ∈ snap ∧ f.entity = e ∧
        ∃ view, lookup_image gpu f.output = some view ∧
          g.entries = [{ binding := 0
                         resource := BindingResource.TextureView
                           view.texture_view }] := by
  constructor
  · rfl
  · intro e g hmem
    have hq' : snap.foldl (queue_step gpu pipeline)
        (some ComputeFractalBindGroups.default) = some bg := by
      simpa [queue_fractals] using hq
    rcases queue_foldl_mem gpu pipeline snap _ bg hq' (e, g) hmem
      with h0 | h0
    · exact absurd h0 (by simp [ComputeFractalBindGroups.default])
    · obtain ⟨f, hfmem, hfe, hfg⟩ := h0
      rcases hv : lookup_image gpu f.output with _ | view
      · rw [(queued_bind_group_none_iff gpu pipeline f).mpr hv] at hfg
        exact absurd hfg (by simp)
      · have hg : g = create_bind_group
            { label := none
              layout := pipeline.texture_bind_group_layout
              entries := [{ binding := 0
                            resource := BindingResource.TextureView
                              view.texture_view }] } := by
          unfold queued_bind_group at hfg
          rw [hv] at hfg
          simpa using hfg.symm
        refine ⟨?_, f, hfmem, hfe.symm, view, hv, ?_⟩
        · rw [hg]
          rfl
        · rw [hg]
          rfl

/-- C6 witness: the concrete one-entry frame publishes exactly the bind
group wired to texture view 9 against the shared layout. -/
theorem fractal_bind_group_layout_spec_witness :
    (ComputeFractalPipeline.from_world
        ⟨[]⟩).1.texture_bind_group_layout =
      { label := some "compute_fractal_texture_layout"
        entries := [{ binding := 0
                      visibility := ShaderStages.COMPUTE
                      ty := BindingType.StorageTexture
                        StorageTextureAccess.ReadWrite
                        TextureFormat.Rgba8Unorm
                        TextureViewDimension.D2
                      count := none }] } ∧
    ∀ e g, (e, g) ∈ (⟨[(0,
        { label := none
          layout := (ComputeFractalPipeline.from_world
            ⟨[]⟩).1.texture_bind_group_layout
          entries := [{ binding := 0
                        resource := BindingResource.TextureView
                          9 }] })]⟩ :
        ComputeFractalBindGroups).values →
      g.layout = (ComputeFractalPipeline.from_world
        ⟨[]⟩).1.texture_bind_group_layout ∧
      ∃ f, f ∈ ([⟨0, FractalType.Julia 0.0 0.0, 100, 5⟩] :
          List ExtractedFractal) ∧ f.entity = e ∧
        ∃ view, lookup_image [(5, ⟨9⟩)] f.output = some view ∧
          g.entries = [{ binding := 0
                         resource := BindingResource.TextureView
                           view.texture_view }] :=
  fractal_bind_group_layout_spec ⟨[]⟩ [(5, ⟨9⟩)]
    (ComputeFractalPipeline.from_world ⟨[]⟩).1
    [⟨0, FractalType.Julia 0.0 0.0, 100, 5⟩] _ rfl

/-- C8: two visible snapshot entries of the same fractal kind with
different output images (hence different texture views) receive two
distinct bind groups, each wiring the view of its own output, while the
pipeline handle looked up for the kind of either entry is one and the
same julia_pipeline of the shared registry resource. -/
theorem same_kind_distinct_outputs_two_bind_groups
    (gpu : RenderAssetsImage) (pipeline : ComputeFractalPipeline)
    (snap : List ExtractedFractal) (f1 f2 : ExtractedFractal)
    (v1 v2 : GpuImage)
    (hres : ∀ f ∈ snap, (lookup_image gpu f.output).isSome)
    (hnd : (snap.map ExtractedFractal.entity).Nodup)
    (h1 : f1 ∈ snap) (h2 : f2 ∈ snap)
    (hkind : f1.fractal_type = f2.fractal_type)
    (hent : f1.entity ≠ f2.entity)
    (hout : f1.output ≠ f2.output)
    (hl1 : lookup_image gpu f1.output = some v1)
    (hl2 : lookup_image gpu f2.output = some v2)
    (hview : v1.texture_view ≠ v2.texture_view) :
    ∃ bg g1 g2,
      queue_fractals gpu pipeline snap = some bg ∧
      bind_groups_lookup bg.values f1.entity = some g1 ∧
      bind_groups_lookup bg.values f2.entity = some g2 ∧
      g1 ≠ g2 ∧
      pipeline_id_for pipeline f1.fractal_type =
        pipeline.julia_pipeline ∧
      pipeline_id_for pipeline f2.fractal_type =
        pipeline.julia_pipeline := by
  have hs : (queue_fractals gpu pipeline snap).isSome := by
    unfold queue_fractals
    exact (queue_foldl_isSome_iff gpu pipeline snap
      ComputeFractalBindGroups.default).mpr hres
  rcases hq : queue_fractals gpu pipeline snap with _ | bg
  · rw [hq] at hs
    exact absurd hs (by simp)
  · have hq' : snap.foldl (queue_step gpu pipeline)
        (some ComputeFractalBindGroups.default) = some bg := by
      simpa [queue_fractals] using hq
    have hb1 : bind_groups_lookup bg.values f1.entity =
        queued_bind_group gpu pipeline f1 :=
      queue_foldl_lookup_mem gpu pipeline snap _ bg hq' hnd f1 h1
    have hb2 : bind_groups_lookup bg.values f2.entity =
        queued_bind_group gpu pipeline f2 :=
      queue_foldl_lookup_mem gpu pipeline snap _ bg hq' hnd f2 h2
    have he1 : queued_bind_group gpu pipeline f1 =
        some (create_bind_group
          { label := none
            layout := pipeline.texture_bind_group_layout
            entries := [{ binding := 0
                          resource := BindingResource.TextureView
                            v1.texture_view }] }) := by
      unfold queued_bind_group
      rw [hl1]
    have he2 : queued_bind_group gpu pipeline f2 =
        some (create_bind_group
          { label := none
            layout := pipeline.texture_bind_group_layout
            entries := [{ binding := 0
                          resource := BindingResource.TextureView
                            v2.texture_view }] }) := by
      unfold queued_bind_group
      rw [hl2]
    refine ⟨bg, _, _, rfl, hb1.trans he1, hb2.trans he2, ?_, ?_, ?_⟩
    · intro hEq
      apply hview
      simpa [create_bind_group] using hEq
    · rcases hft : f1.fractal_type with ⟨a, b⟩
      simp [pipeline_id_for]
    · rcases hft : f2.fractal_type with ⟨a, b⟩
      simp [pipeline_id_for]

/-- C8 witness: two Julia requests with outputs 10 and 11, both
uploaded with distinct texture views 100 and 101, yield two distinct
bind groups and the shared julia pipeline handle. -/
theorem same_kind_distinct_outputs_two_bind_groups_witness :
    ∃ bg g1 g2,
      queue_fractals [(10, ⟨100⟩), (11, ⟨101⟩)]
        (ComputeFractalPipeline.from_world ⟨[]⟩).1
        [⟨0, FractalType.Julia 1.5 2.5, 100, 10⟩,
         ⟨1, FractalType.Julia 1.5 2.5, 100, 11⟩] = some bg ∧
      bind_groups_lookup bg.values 0 = some g1 ∧
      bind_groups_lookup bg.values 1 = some g2 ∧
      g1 ≠ g2 ∧
      pipeline_id_for (ComputeFractalPipeline.from_world ⟨[]⟩).1
        (FractalType.Julia 1.5 2.5) =
        (ComputeFractalPipeline.from_world ⟨[]⟩).1.julia_pipeline ∧
      pipeline_id_for (ComputeFractalPipeline.from_world ⟨[]⟩).1
        (FractalType.Julia 1.5 2.5) =
        (ComputeFractalPipeline.from_world ⟨[]⟩).1.julia_pipeline :=
  same_kind_distinct_outputs_two_bind_groups
    [(10, ⟨100⟩), (11, ⟨101⟩)]
    (ComputeFractalPipeline.from_world ⟨[]⟩).1
    [⟨0, FractalType.Julia 1.5 2.5, 100, 10⟩,
     ⟨1, FractalType.Julia 1.5 2.5, 100, 11⟩]
    ⟨0, FractalType.Julia 1.5 2.5, 100, 10⟩
    ⟨1, FractalType.Julia 1.5 2.5, 100, 11⟩
    ⟨100⟩ ⟨101⟩
    (by
      intro f hf
      rcases List.mem_cons.mp hf with h | h
      · subst h
        rfl
      · rw [List.mem_singleton] at h
        subst h
        rfl)
    (by simp)
    (List.mem_cons_self _ _)
    (List.mem_cons_of_mem _ (List.mem_singleton.mpr rfl))
    rfl
    (by simp)
    (by simp)
    rfl rfl
    (by simp)
